import Mathlib

/-!
Shallow embedding of the NSM admission webhook (cmd-admission-webhook-k8s).

`main.go` is embedded function by function: the `Review` handler, the
kind dispatcher `unmarshal` / `postProcessPodMeta`, the PSA level
classifier `psaLevelByNamespace`, the four patch builders and their
helpers.  `internal/config` (the unnamed source file) contributes
`initializeEnvs` (here `resolveEnvList`).

Modelling conventions:
- Go strings are Lean `String`; Go `map[string]string` is an association
  list (`SMap`) with first-match lookup and in-place overwrite insert,
  which realises the deterministic content of a Go map (iteration order
  of Go maps only ever feeds per-key overwrites here).
- Go `nil` maps/pointers are `Option`; a lookup in a `nil` map yields
  the empty string, as in Go.
- `json.Marshal` of the patch document is an explicit fallible parameter
  of `review`; JSON decoding of the raw admission object is abstracted
  as an `Option DecodedObj` field of the request (the decoded value, or
  `none` for a decode failure).
- Panics (`initializeEnvs` indexing, `resource.MustParse`) are `none`
  results of `Option`-valued embeddings.
-/

/-- Association list standing for a Go `map[string]string`. -/
abbrev SMap := List (String × String)

/-- First-match lookup, the content of Go map indexing. -/
def lookupS : SMap → String → Option String
  | [], _ => none
  | (k0, v0) :: rest, k => if k0 = k then some v0 else lookupS rest k

/-- Go map indexing `m[k]` with the zero-value default `""`. -/
def getS (m : SMap) (k : String) : String := (lookupS m k).getD ""

/-- Go map assignment `m[k] = v`: overwrite the first binding of `k` in
place, or append a new binding. -/
def insertS : SMap → String → String → SMap
  | [], k, v => [(k, v)]
  | (k0, v0) :: rest, k, v =>
    if k0 = k then (k, v) :: rest else (k0, v0) :: insertS rest k v

/-- Association list standing for the Go `map[string]int` of pool
resources in `parseResources`. -/
abbrev NMap := List (String × Nat)

/-- Go `m[k]++` on a `map[string]int`: a missing key counts from zero. -/
def bumpN : NMap → String → NMap
  | [], k => [(k, 1)]
  | (k0, n) :: rest, k =>
    if k0 = k then (k0, n + 1) :: rest else (k0, n) :: bumpN rest k

/-- `strings.Split` on a list of characters, for a one-character
separator: `goSplitList sep l` cuts `l` at every occurrence of `sep`.
Like Go, the result is never empty and the empty input gives `[[]]`. -/
def goSplitList (sep : Char) : List Char → List (List Char)
  | [] => [[]]
  | c :: rest =>
    if c = sep then [] :: goSplitList sep rest
    else
      match goSplitList sep rest with
      | [] => [[c]]
      | g :: gs => (c :: g) :: gs

/-- `strings.Split(s, sep)` for the one-character separators this
program uses. -/
def goSplit (s : String) (sep : Char) : List String :=
  (goSplitList sep s.data).map String.mk

theorem goSplitList_ne_nil (sep : Char) (l : List Char) :
    goSplitList sep l ≠ [] := by
  cases l with
  | nil => simp [goSplitList]
  | cons c rest =>
    simp only [goSplitList]
    split
    · simp
    · cases goSplitList sep rest with
      | nil => simp
      | cons g gs => simp

/-- Unfolding of `goSplitList` in terms of `takeWhile`/`dropWhile`:
the first piece is everything before the first separator, and the rest
is the split of everything after it. -/
theorem goSplitList_eq (sep : Char) (l : List Char) :
    goSplitList sep l =
      match l.dropWhile (fun c => c != sep) with
      | [] => [l]
      | _ :: r => l.takeWhile (fun c => c != sep) :: goSplitList sep r := by
  induction l with
  | nil => simp [goSplitList]
  | cons c rest ih =>
    by_cases hc : c = sep
    · subst hc
      simp [goSplitList, List.dropWhile, List.takeWhile]
    · have hbne : (c != sep) = true := by simp [hc]
      simp only [goSplitList, if_neg hc, List.dropWhile, hbne, List.takeWhile]
      rw [ih]
      rcases hdrop : rest.dropWhile (fun c => c != sep) with _ | ⟨d, r⟩
      · simp
      · simp

theorem takeWhile_eq_self_of_dropWhile_nil {p : Char → Bool} {l : List Char}
    (h : l.dropWhile p = []) : l.takeWhile p = l := by
  conv_rhs => rw [← List.takeWhile_append_dropWhile (p := p) (l := l)]
  simp [h]

/-- The head of a Go split is the prefix of the input before the first
separator. -/
theorem goSplitList_head (sep : Char) (l : List Char) :
    (goSplitList sep l).head? = some (l.takeWhile (fun c => c != sep)) := by
  rw [goSplitList_eq]
  rcases hdrop : l.dropWhile (fun c => c != sep) with _ | ⟨d, r⟩
  · simp [takeWhile_eq_self_of_dropWhile_nil hdrop]
  · simp

/-- A Go split has at least two pieces exactly when the separator occurs
in the input. -/
theorem goSplitList_two_iff (sep : Char) (l : List Char) :
    2 ≤ (goSplitList sep l).length ↔ sep ∈ l := by
  rw [goSplitList_eq]
  rcases hdrop : l.dropWhile (fun c => c != sep) with _ | ⟨d, r⟩
  · rw [List.dropWhile_eq_nil_iff] at hdrop
    simp only [List.length_singleton]
    constructor
    · omega
    · intro hmem
      have := hdrop sep hmem
      simp at this
  · constructor
    · intro _
      have hsub : l.dropWhile (fun c => c != sep) <:+ l := List.dropWhile_suffix _
      have hdmem : d ∈ l := by
        apply hsub.subset
        rw [hdrop]; simp
      have hd : (d != sep) = false := by
        have := List.head_dropWhile_not (p := fun c => c != sep) (l := l)
        rw [hdrop] at this
        simpa using this (by simp)
      have : d = sep := by simpa using hd
      rwa [← this]
    · intro _
      have := goSplitList_ne_nil sep r
      rcases hg : goSplitList sep r with _ | ⟨g, gs⟩
      · exact absurd hg this
      · simp [hg]

/-- `path.Base` from Go's `path` package: last element after removing
trailing slashes; `"."` for the empty path, `"/"` for all-slashes. -/
def goPathBase (s : String) : String :=
  if s = "" then "." else
    let trimmed := (s.data.reverse.dropWhile (fun c => c = '/')).reverse
    if trimmed = [] then "/"
    else String.mk (trimmed.reverse.takeWhile (fun c => c != '/')).reverse

/-- `nameOf` (main.go): base path component of the image reference,
stripped of any `:tag` suffix. -/
def nameOf (img : String) : String :=
  ((goSplit (goPathBase img) ':').headD "")

/-- The two-step `path.Join` of `Review`: the patch root `p` is
`path.Join("/", ...)`, i.e. `"/"` for bare pods and `"/spec/template"`
for wrapper kinds, and each operation path is `path.Join(p, a, b)`.
Specialised to those slash-clean inputs. -/
def joinPatch (p a b : String) : String :=
  (if p = "/" then "" else p) ++ "/" ++ a ++ "/" ++ b

/-- The root path `p` computed in `Review` (lines 88-92 of main.go). -/
def basePath (kind : String) : String :=
  if kind = "Pod" then "/" else "/spec/template"

/-! ### URL query extraction (net/url + sdk nsurl, as used by parseResources) -/

/-- Fallibility model for Go `url.Parse`: the parses this program feeds
it fail only for URLs containing ASCII control characters (the
`net/url` guard); every annotation token free of them parses. -/
def urlParseOk (s : String) : Bool :=
  s.data.all (fun c => !(c.toNat < 32 || c.toNat = 127))

/-- The raw query of a URL: everything after the first `?` (the
annotation tokens this program parses carry no fragment part). -/
def rawQueryOf (s : String) : String :=
  match s.data.dropWhile (fun c => c != '?') with
  | [] => ""
  | _ :: rest => String.mk rest

/-- `url.Values` built from a raw query, keeping the first value per
key, which is what `nsurl.NSURL.Labels` reads: pieces are split on `&`,
a piece's key is the part before its first `=`, its value the part
after (percent-decoding is not modelled; the inputs used are plain). -/
def parseQuery (q : String) : SMap :=
  (goSplit q '&').foldl
    (fun m piece =>
      let kv := goSplit piece '='
      let k := kv.headD ""
      let v := ((kv.drop 1).headD "")
      match lookupS m k with
      | some _ => m
      | none => insertS m k v)
    []

/-- `nsurl.NSURL.Labels()` of a parsed URL: its query parameters. -/
def nsurlLabels (u : String) : SMap := parseQuery (rawQueryOf u)

/-- `parseResources` (main.go lines 278-301): split the annotation on
commas, parse every token as a URL (any parse failure abandons the
whole computation, yielding the Go `nil` map, which ranges as empty),
then count occurrences per distinct `sriovToken` query value (taking
the first comma-piece of that value, as the source does). -/
def parseResources (v : String) : NMap :=
  let raws := goSplit v ','
  if raws.all urlParseOk then
    raws.foldl
      (fun pool raw =>
        match lookupS (nsurlLabels raw) "sriovToken" with
        | some tok => bumpN pool ((goSplit tok ',').headD "")
        | none => pool)
      []
  else []

/-! ### Pod security admission classification -/

/-- `psa.EnforceLevelLabel`. -/
def enforceLevelLabelKey : String := "pod-security.kubernetes.io/enforce"

/-- `psa.ParseLevel`: exactly the three recognised level strings parse;
anything else (including the empty string of a missing label) errors. -/
def parsePsaLevel (s : String) : Option String :=
  if s = "privileged" ∨ s = "baseline" ∨ s = "restricted" then some s else none

/-- The namespace object as read by this program: its annotations and
labels (Go indexes possibly-nil maps, defaulting to `""`). -/
structure NamespaceObj where
  annots : SMap := []
  labels : SMap := []
deriving DecidableEq

/-- `psaLevelByNamespace` (main.go lines 149-158): `Privileged` for a
nil namespace or an unparseable (or missing) enforcement label. -/
def psaLevelByNs (ns : Option NamespaceObj) : String :=
  match ns with
  | none => "privileged"
  | some n =>
    match parsePsaLevel (getS n.labels enforceLevelLabelKey) with
    | none => "privileged"
    | some level => level

/-! ### Kubernetes object shapes used by the webhook -/

/-- `corev1.EnvVar` as populated here: a literal value or a field
reference (`valueFrom.fieldRef.fieldPath`). -/
structure EnvVar where
  name : String
  value : String := ""
  valueFromFieldPath : Option String := none
deriving DecidableEq

/-- An owner reference, of which only the kind is read. -/
structure OwnerRef where
  kind : String
deriving DecidableEq

/-- `v1.ObjectMeta` as read here. `none` annotations/labels model Go
nil maps (JSON-absent); `some` models a present (possibly empty) map. -/
structure ObjectMeta where
  annots : Option SMap := none
  labels : Option SMap := none
  generateName : String := ""
  ownerRefs : List OwnerRef := []
deriving DecidableEq

structure VolumeMount where
  name : String
  mountPath : String
  readOnly : Bool
deriving DecidableEq

/-- The two volume source shapes this webhook emits. -/
inductive VolumeSrc where
  | csi (driver : String) (readOnly : Bool)
  | hostPath (path : String) (hpType : String)
deriving DecidableEq

structure Volume where
  name : String
  src : VolumeSrc
deriving DecidableEq

/-- Resource quantities are kept as their source strings
(`resource.MustParse` input): limits and requests maps. -/
structure ResourceReqs where
  limits : SMap := []
  requests : SMap := []
deriving DecidableEq

/-- The fields of `corev1.SecurityContext` this webhook writes. -/
structure SecurityCtx where
  dropCaps : List String
  allowPrivEsc : Bool
deriving DecidableEq

structure Container where
  name : String := ""
  env : List EnvVar := []
  image : String := ""
  imagePullPolicy : String := ""
  volumeMounts : List VolumeMount := []
  resources : ResourceReqs := {}
  securityCtx : Option SecurityCtx := none
deriving DecidableEq

structure PodSpec where
  containers : List Container := []
  initContainers : List Container := []
  volumes : List Volume := []
deriving DecidableEq

/-! ### Admission request/response and configuration -/

/-- The result of `json.Unmarshal` of the raw admission object into the
kind's native shape: wrapper metadata (zero-valued and unused for bare
pods, whose `metaPtr` stays nil), pod-template metadata, and pod spec. -/
structure DecodedObj where
  meta : ObjectMeta := {}
  podMeta : ObjectMeta := {}
  podSpec : PodSpec := {}
deriving DecidableEq

/-- `admissionv1.AdmissionRequest` as read by `Review`: UID, operation,
declared kind (`in.Kind.Kind`), namespace name, and the decode outcome
of the raw object bytes for that kind (`none` = decode failure). -/
structure AdmissionRequest where
  uid : String := ""
  operation : String := "CREATE"
  kind : String := ""
  nsName : String := ""
  obj : Option DecodedObj := none
deriving DecidableEq

/-- `admissionv1.AdmissionResponse` as written by `Review`.  The zero
value of `Allowed` is `false`; `result` is `Result.Status`. -/
structure AdmissionResponse where
  uid : String := ""
  allowed : Bool := false
  patch : Option String := none
  patchType : Option String := none
  result : Option String := none
deriving DecidableEq

/-- The configuration fields `Review` and the patch builders read. -/
structure Config where
  annotKey : String := "networkservicemesh.io"
  labels : SMap := []
  nsurlEnvName : String := "NSM_NETWORK_SERVICES"
  initContainerImages : List String := []
  containerImages : List String := []
  envs : List String := []
  sidecarLimitsMemory : String := "80Mi"
  sidecarLimitsCPU : String := "200m"
  sidecarRequestsMemory : String := "40Mi"
  sidecarRequestsCPU : String := "100m"
deriving DecidableEq

/-- One `jsonpatch.JsonPatchOperation`; the value is one of the three
payload shapes this webhook emits. -/
inductive PatchValue where
  | containers (cs : List Container)
  | volumes (vs : List Volume)
  | labelMap (m : SMap)
deriving DecidableEq

structure PatchOp where
  op : String
  path : String
  value : PatchValue
deriving DecidableEq

/-! ### Kind dispatch and post-processing -/

/-- The five kinds `unmarshal` dispatches on. -/
def supportedKinds : List String :=
  ["Deployment", "Pod", "DaemonSet", "StatefulSet", "ReplicaSet"]

/-- The four pod-template-bearing wrapper kinds. -/
def wrapperKinds : List String :=
  ["Deployment", "DaemonSet", "StatefulSet", "ReplicaSet"]

/-- `postProcessPodMeta` (main.go lines 206-227): initialise a nil label
map; for wrapper kinds inject the wrapper's annotations into the pod
template, rejecting (nil) if the template already carries annotations;
reject a ReplicaSet owned by a Deployment. -/
def postProcessPodMeta (podMeta meta : ObjectMeta) (kind : String) :
    Option ObjectMeta :=
  let pm1 := { podMeta with labels := some (podMeta.labels.getD []) }
  let step2 : Option ObjectMeta :=
    if kind ≠ "Pod" then
      match pm1.annots with
      | none => some { pm1 with annots := meta.annots }
      | some _ => none
    else some pm1
  match step2 with
  | none => none
  | some pm2 =>
    if kind = "ReplicaSet" ∧ meta.ownerRefs.any (fun o => o.kind = "Deployment")
    then none
    else some pm2

/-- `unmarshal` (main.go lines 160-204): dispatch on the declared kind
(unsupported kinds and decode failures yield no view), then post-process
the pod-template metadata.  For a bare Pod the wrapper metadata pointer
stays nil and is never read, embedded as the zero `ObjectMeta`. -/
def unmarshal (req : AdmissionRequest) : Option (ObjectMeta × PodSpec) :=
  if req.kind ∈ supportedKinds then
    match req.obj with
    | none => none
    | some o =>
      match postProcessPodMeta o.podMeta
          (if req.kind = "Pod" then {} else o.meta) req.kind with
      | none => none
      | some pm => some (pm, o.podSpec)
  else none

/-! ### Patch builders -/

/-- `addVolumeMounts` (main.go lines 381-391). -/
def addVolumeMounts (c : Container) : Container :=
  { c with volumeMounts := c.volumeMounts ++
      [⟨"spire-agent-socket", "/run/spire/sockets", true⟩,
       ⟨"nsm-socket", "/var/lib/networkservicemesh", true⟩] }

/-- `addResources` (main.go lines 359-366): write one limit per pool
entry, quantity `strconv.Itoa(count)`. -/
def addResources (c : Container) (r : NMap) : Container :=
  { c with resources :=
      { c.resources with
        limits := r.foldl (fun m kv => insertS m kv.1 (Nat.repr kv.2))
          c.resources.limits } }

/-- `addResourcesLimits` (main.go lines 368-379): replace the whole
`Resources` struct with the static configured limits and requests. -/
def addResourcesLimits (cfg : Config) (c : Container) : Container :=
  { c with resources :=
      { limits := [("cpu", cfg.sidecarLimitsCPU),
                   ("memory", cfg.sidecarLimitsMemory)],
        requests := [("cpu", cfg.sidecarRequestsCPU),
                     ("memory", cfg.sidecarRequestsMemory)] } }

/-- The security context written under the restricted policy. -/
def restrictedSecurityCtx : SecurityCtx := ⟨["ALL"], false⟩

/-- `createInitContainerPatch` (main.go lines 303-328). -/
def createInitContainerPatch (cfg : Config) (p v : String)
    (initContainers : List Container) (psaLevel : String)
    (envVars : List EnvVar) : PatchOp :=
  let poolResources := parseResources v
  let cs := cfg.initContainerImages.foldl
    (fun acc img =>
      let c : Container :=
        { name := nameOf img, env := envVars, image := img,
          imagePullPolicy := "IfNotPresent" }
      let c := addVolumeMounts c
      let c := addResources c poolResources
      let c := addResourcesLimits cfg c
      let c := if psaLevel = "restricted"
        then { c with securityCtx := some restrictedSecurityCtx } else c
      acc ++ [c])
    initContainers
  ⟨"add", joinPatch p "spec" "initContainers", PatchValue.containers cs⟩

/-- `createContainerPatch` (main.go lines 330-353). -/
def createContainerPatch (cfg : Config) (p : String)
    (containers : List Container) (psaLevel : String)
    (envVars : List EnvVar) : PatchOp :=
  let cs := cfg.containerImages.foldl
    (fun acc img =>
      let c : Container :=
        { name := nameOf img, env := envVars, image := img,
          imagePullPolicy := "IfNotPresent" }
      let c := addVolumeMounts c
      let c := addResourcesLimits cfg c
      let c := if psaLevel = "restricted"
        then { c with securityCtx := some restrictedSecurityCtx } else c
      acc ++ [c])
    containers
  ⟨"add", joinPatch p "spec" "containers", PatchValue.containers cs⟩

/-- `createVolumesPatch` (main.go lines 229-276). -/
def createVolumesPatch (p : String) (volumes : List Volume)
    (psaLevel : String) : PatchOp :=
  let vs :=
    if psaLevel ≠ "privileged" then
      volumes ++
        [⟨"spire-agent-socket", VolumeSrc.csi "csi.spiffe.io" true⟩,
         ⟨"nsm-socket", VolumeSrc.csi "csi.networkservicemesh.io" true⟩]
    else
      volumes ++
        [⟨"spire-agent-socket",
          VolumeSrc.hostPath "/run/spire/sockets" "Directory"⟩,
         ⟨"nsm-socket",
          VolumeSrc.hostPath "/var/lib/networkservicemesh" "Directory"⟩]
  ⟨"add", joinPatch p "spec" "volumes", PatchValue.volumes vs⟩

/-- The label merge inside `createLabelPatch`: configured entries are
written into the workload's label map, overwriting on collision. -/
def mergeLabels (v : SMap) (cfgLabels : SMap) : SMap :=
  cfgLabels.foldl (fun m kv => insertS m kv.1 kv.2) v

/-- `createLabelPatch` (main.go lines 393-398). -/
def createLabelPatch (cfg : Config) (p : String) (v : SMap) : PatchOp :=
  ⟨"add", joinPatch p "metadata" "labels",
    PatchValue.labelMap (mergeLabels v cfg.labels)⟩

/-! ### The Review entry point -/

/-- The outcome of one `Review` call, with the response plus the
observable effects the design talks about: whether the namespace read
was issued, the value of the local `annotation` variable at the patch
decision (when a view was decoded), and the four-operation document
handed to `json.Marshal` (when one was built). -/
structure ReviewResult where
  resp : AdmissionResponse
  nsQueried : Bool
  effAnnot : Option String := none
  patchDoc : Option (List PatchOp) := none

/-- The env-var list assembled in `Review` (lines 117-125): the resolved
configured envs, then the mesh-URL variable, then `NSM_NAME`, whose
value embeds the freshly drawn `clientID` only when the workload has no
generate-name prefix. -/
def buildEnvVars (cfg : Config) (resolvedEnvs : List EnvVar)
    (clientID : String) (pm : ObjectMeta) (annotVal : String) :
    List EnvVar :=
  let nsmNameEnv : EnvVar :=
    if pm.generateName = ""
    then ⟨"NSM_NAME", "$(POD_NAME)-" ++ clientID, none⟩
    else ⟨"NSM_NAME", "$(POD_NAME)", none⟩
  resolvedEnvs ++ [⟨cfg.nsurlEnvName, annotVal, none⟩, nsmNameEnv]

/-- The four-operation patch document of `Review` (lines 128-133), in
source order. -/
def buildPatchDoc (cfg : Config) (p annotVal : String) (spec : PodSpec)
    (podLabels : SMap) (psaLevel : String) (envVars : List EnvVar) :
    List PatchOp :=
  [createInitContainerPatch cfg p annotVal spec.initContainers psaLevel envVars,
   createContainerPatch cfg p spec.containers psaLevel envVars,
   createVolumesPatch p spec.volumes psaLevel,
   createLabelPatch cfg p podLabels]

/-- The body of `Review` after a view was decoded (main.go lines
105-146).  `nsLookup` is the outcome of the namespace read (already
issued at this point; `none` is the nil/error case the source guards
with `namespace != nil`), `marshal` the `json.Marshal` oracle. -/
def reviewDecoded (cfg : Config) (resolvedEnvs : List EnvVar)
    (clientID : String) (nsLookup : Option NamespaceObj)
    (marshal : List PatchOp → Except String String)
    (req : AdmissionRequest) (pm : ObjectMeta) (spec : PodSpec) :
    ReviewResult :=
  let resp0 : AdmissionResponse := { uid := req.uid }
  let ownAnnot := getS (pm.annots.getD []) cfg.annotKey
  if ownAnnot = "" ∧ req.kind ≠ "Pod" then
    { resp := { resp0 with allowed := true }, nsQueried := true,
      effAnnot := some ownAnnot }
  else
    let annotVal :=
      if ownAnnot = "" ∧ req.kind = "Pod" then
        match nsLookup with
        | some n => getS n.annots cfg.annotKey
        | none => ownAnnot
      else ownAnnot
    if annotVal ≠ "" then
      let envVars := buildEnvVars cfg resolvedEnvs clientID pm annotVal
      let doc := buildPatchDoc cfg (basePath req.kind) annotVal spec
        (pm.labels.getD []) (psaLevelByNs nsLookup) envVars
      match marshal doc with
      | Except.error e =>
        { resp := { resp0 with result := some e }, nsQueried := true,
          effAnnot := some annotVal, patchDoc := some doc }
      | Except.ok bs =>
        let respOk := { resp0 with
          allowed := true, patch := some bs, patchType := some "JSONPatch" }
        { resp := respOk, nsQueried := true, effAnnot := some annotVal,
          patchDoc := some doc }
    else
      { resp := { resp0 with allowed := true }, nsQueried := true,
        effAnnot := some annotVal }

/-- `Review` (main.go lines 72-147).  Non-CREATE operations are allowed
before the namespace read; every CREATE request issues the read (line
96) regardless of kind, annotations, or decodability; an undecodable
request is then allowed unmodified; otherwise `reviewDecoded` runs. -/
def review (cfg : Config) (resolvedEnvs : List EnvVar) (clientID : String)
    (nsLookup : Option NamespaceObj)
    (marshal : List PatchOp → Except String String)
    (req : AdmissionRequest) : ReviewResult :=
  let resp0 : AdmissionResponse := { uid := req.uid }
  if req.operation ≠ "CREATE" then
    { resp := { resp0 with allowed := true }, nsQueried := false }
  else
    match unmarshal req with
    | none => { resp := { resp0 with allowed := true }, nsQueried := true }
    | some (pm, spec) =>
      reviewDecoded cfg resolvedEnvs clientID nsLookup marshal req pm spec

/-! ### Config env resolution (internal/config, initializeEnvs) -/

/-- The first well-known bootstrap env var appended by
`initializeEnvs`. -/
def spiffeEnv : EnvVar :=
  ⟨"SPIFFE_ENDPOINT_SOCKET", "unix:///run/spire/sockets/agent.sock", none⟩

/-- The second bootstrap env var: `POD_NAME` from the
`metadata.name` field reference. -/
def podNameEnv : EnvVar := ⟨"POD_NAME", "", some "metadata.name"⟩

/-- One loop iteration of `initializeEnvs`: split the raw entry on `=`
and build an env var from pieces 0 and 1.  `none` embeds the Go panic
(index out of range) on an entry with no `=`. -/
def resolveEnvVar (envRaw : String) : Option EnvVar :=
  match goSplit envRaw '=' with
  | k :: v :: _ => some ⟨k, v, none⟩
  | _ => none

/-- The loop of `initializeEnvs` over `Config.Envs`, stopping at the
first panicking entry. -/
def resolveEnvList : List String → Option (List EnvVar)
  | [] => some []
  | e :: rest =>
    match resolveEnvVar e with
    | none => none
    | some v =>
      match resolveEnvList rest with
      | none => none
      | some vs => some (v :: vs)

/-- `initializeEnvs` (config, lines 124-146), as triggered by the first
`GetOrResolveEnvs` call: the per-entry env vars followed by the two
bootstrap env vars; `none` embeds a panic during initialization. -/
def resolveEnvs (envs : List String) : Option (List EnvVar) :=
  (resolveEnvList envs).map (fun l => l ++ [spiffeEnv, podNameEnv])

/-! ### Branch characterizations of review (shared bridge lemmas) -/

/-- The effective directive of lines 105-115: the workload's own value,
with the namespace fallback applied only for bare pods with a resolved
namespace. -/
def resolveAnnot (cfg : Config) (kind : String) (pm : ObjectMeta)
    (ns : Option NamespaceObj) : String :=
  let ownAnnot := getS (pm.annots.getD []) cfg.annotKey
  if ownAnnot = "" ∧ kind = "Pod" then
    match ns with
    | some n => getS n.annots cfg.annotKey
    | none => ownAnnot
  else ownAnnot

theorem review_not_create (cfg : Config) (rE : List EnvVar) (cid : String)
    (ns : Option NamespaceObj) (marshal : List PatchOp → Except String String)
    (req : AdmissionRequest) (hop : req.operation ≠ "CREATE") :
    review cfg rE cid ns marshal req =
      { resp := { uid := req.uid, allowed := true }, nsQueried := false } := by
  unfold review
  rw [if_pos hop]

theorem review_no_view (cfg : Config) (rE : List EnvVar) (cid : String)
    (ns : Option NamespaceObj) (marshal : List PatchOp → Except String String)
    (req : AdmissionRequest) (hop : req.operation = "CREATE")
    (hun : unmarshal req = none) :
    review cfg rE cid ns marshal req =
      { resp := { uid := req.uid, allowed := true }, nsQueried := true } := by
  unfold review
  rw [if_neg (by simp [hop]), hun]

theorem review_eq_decoded (cfg : Config) (rE : List EnvVar) (cid : String)
    (ns : Option NamespaceObj) (marshal : List PatchOp → Except String String)
    (req : AdmissionRequest) (pm : ObjectMeta) (spec : PodSpec)
    (hop : req.operation = "CREATE")
    (hun : unmarshal req = some (pm, spec)) :
    review cfg rE cid ns marshal req =
      reviewDecoded cfg rE cid ns marshal req pm spec := by
  unfold review
  rw [if_neg (by simp [hop]), hun]

theorem reviewDecoded_wrapper_skip (cfg : Config) (rE : List EnvVar)
    (cid : String) (ns : Option NamespaceObj)
    (marshal : List PatchOp → Except String String) (req : AdmissionRequest)
    (pm : ObjectMeta) (spec : PodSpec)
    (h : getS (pm.annots.getD []) cfg.annotKey = "" ∧ req.kind ≠ "Pod") :
    reviewDecoded cfg rE cid ns marshal req pm spec =
      { resp := { uid := req.uid, allowed := true }, nsQueried := true,
        effAnnot := some (getS (pm.annots.getD []) cfg.annotKey) } := by
  simp only [reviewDecoded]
  rw [if_pos h]

theorem reviewDecoded_no_directive (cfg : Config) (rE : List EnvVar)
    (cid : String) (ns : Option NamespaceObj)
    (marshal : List PatchOp → Except String String) (req : AdmissionRequest)
    (pm : ObjectMeta) (spec : PodSpec)
    (hn : ¬(getS (pm.annots.getD []) cfg.annotKey = "" ∧ req.kind ≠ "Pod"))
    (hA : resolveAnnot cfg req.kind pm ns = "") :
    reviewDecoded cfg rE cid ns marshal req pm spec =
      { resp := { uid := req.uid, allowed := true }, nsQueried := true,
        effAnnot := some (resolveAnnot cfg req.kind pm ns) } := by
  simp only [resolveAnnot] at hA ⊢
  simp only [reviewDecoded]
  rw [if_neg hn, if_neg (fun hne => hne hA), hA]

theorem reviewDecoded_inject (cfg : Config) (rE : List EnvVar)
    (cid : String) (ns : Option NamespaceObj)
    (marshal : List PatchOp → Except String String) (req : AdmissionRequest)
    (pm : ObjectMeta) (spec : PodSpec)
    (hn : ¬(getS (pm.annots.getD []) cfg.annotKey = "" ∧ req.kind ≠ "Pod"))
    (hA : resolveAnnot cfg req.kind pm ns ≠ "") :
    reviewDecoded cfg rE cid ns marshal req pm spec =
      match marshal (buildPatchDoc cfg (basePath req.kind)
          (resolveAnnot cfg req.kind pm ns) spec (pm.labels.getD [])
          (psaLevelByNs ns)
          (buildEnvVars cfg rE cid pm (resolveAnnot cfg req.kind pm ns))) with
      | Except.error e =>
        { resp := { uid := req.uid, result := some e }, nsQueried := true,
          effAnnot := some (resolveAnnot cfg req.kind pm ns),
          patchDoc := some (buildPatchDoc cfg (basePath req.kind)
            (resolveAnnot cfg req.kind pm ns) spec (pm.labels.getD [])
            (psaLevelByNs ns)
            (buildEnvVars cfg rE cid pm (resolveAnnot cfg req.kind pm ns))) }
      | Except.ok bs =>
        { resp := { uid := req.uid, allowed := true, patch := some bs,
                    patchType := some "JSONPatch" },
          nsQueried := true,
          effAnnot := some (resolveAnnot cfg req.kind pm ns),
          patchDoc := some (buildPatchDoc cfg (basePath req.kind)
            (resolveAnnot cfg req.kind pm ns) spec (pm.labels.getD [])
            (psaLevelByNs ns)
            (buildEnvVars cfg rE cid pm (resolveAnnot cfg req.kind pm ns))) } := by
  simp only [resolveAnnot] at hA ⊢
  simp only [reviewDecoded]
  rw [if_neg hn, if_pos hA]

/-! ### C1: marshal failure path -/

/-- A bare-Pod CREATE request carrying its own mesh annotation. -/
def reqC1 : AdmissionRequest :=
  { uid := "u1", operation := "CREATE", kind := "Pod", nsName := "ns1",
    obj := some { podMeta :=
      { annots := some [("networkservicemesh.io", "svc1")] } } }

/-- A `json.Marshal` oracle that fails on every document. -/
def marshalFailC1 : List PatchOp → Except String String :=
  fun _ => Except.error "boom"

/-- The four-operation document `review` builds for `reqC1` under the
default configuration with no resolved envs and no namespace. -/
def docC1 : List PatchOp :=
  [⟨"add", "/spec/initContainers", PatchValue.containers []⟩,
   ⟨"add", "/spec/containers", PatchValue.containers []⟩,
   ⟨"add", "/spec/volumes", PatchValue.volumes
     [⟨"spire-agent-socket", VolumeSrc.hostPath "/run/spire/sockets" "Directory"⟩,
      ⟨"nsm-socket", VolumeSrc.hostPath "/var/lib/networkservicemesh" "Directory"⟩]⟩,
   ⟨"add", "/metadata/labels", PatchValue.labelMap []⟩]

/-- C1 counterexample: a CREATE request with a non-empty effective
directive whose patch document fails to serialize gets a response with
an error status and no patch, but its allowed flag is FALSE — `Review`
returns before line 145 sets `Allowed`, so the claim's "allowed flag is
true" is false on the code. -/
theorem C1_counterexample :
    (review {} [] "cid" none marshalFailC1 reqC1).resp.result = some "boom" ∧
    (review {} [] "cid" none marshalFailC1 reqC1).resp.patch = none ∧
    (review {} [] "cid" none marshalFailC1 reqC1).resp.allowed = false := by
  decide

/-- C1 (amended): for every CREATE request whose effective directive is
non-empty (a patch document was built) and whose four-operation patch
document fails JSON serialization, `Review` returns a response carrying
the error as its status and no patch, and the allowed flag is false
(the early return skips `resp.Allowed = true`). -/
theorem C1_marshal_failure_denies (cfg : Config) (rE : List EnvVar)
    (cid : String) (ns : Option NamespaceObj)
    (marshal : List PatchOp → Except String String) (req : AdmissionRequest)
    (doc : List PatchOp) (e : String)
    (hdoc : (review cfg rE cid ns marshal req).patchDoc = some doc)
    (herr : marshal doc = Except.error e) :
    (review cfg rE cid ns marshal req).resp.result = some e ∧
    (review cfg rE cid ns marshal req).resp.patch = none ∧
    (review cfg rE cid ns marshal req).resp.allowed = false := by
  by_cases hop : req.operation = "CREATE"
  · rcases hun : unmarshal req with _ | ⟨pm, spec⟩
    · rw [review_no_view cfg rE cid ns marshal req hop hun] at hdoc
      simp at hdoc
    · rw [review_eq_decoded cfg rE cid ns marshal req pm spec hop hun] at hdoc ⊢
      by_cases hskip : getS (pm.annots.getD []) cfg.annotKey = "" ∧ req.kind ≠ "Pod"
      · rw [reviewDecoded_wrapper_skip cfg rE cid ns marshal req pm spec hskip]
          at hdoc
        simp at hdoc
      · by_cases hA : resolveAnnot cfg req.kind pm ns = ""
        · rw [reviewDecoded_no_directive cfg rE cid ns marshal req pm spec
            hskip hA] at hdoc
          simp at hdoc
        · rw [reviewDecoded_inject cfg rE cid ns marshal req pm spec hskip hA]
            at hdoc ⊢
          generalize hD : buildPatchDoc cfg (basePath req.kind)
            (resolveAnnot cfg req.kind pm ns) spec (pm.labels.getD [])
            (psaLevelByNs ns)
            (buildEnvVars cfg rE cid pm (resolveAnnot cfg req.kind pm ns)) =
            doc0 at hdoc ⊢
          rcases hm : marshal doc0 with e0 | bs
          · rw [hm] at hdoc
            simp at hdoc
            subst hdoc
            rw [hm] at herr
            injection herr with h
            subst h
            exact ⟨rfl, rfl, rfl⟩
          · rw [hm] at hdoc
            simp at hdoc
            subst hdoc
            rw [hm] at herr
            simp at herr
  · rw [review_not_create cfg rE cid ns marshal req hop] at hdoc
    simp at hdoc

/-- C1 witness: the amended theorem applied at the concrete failing
instance. -/
theorem C1_marshal_failure_denies_witness :
    (review {} [] "cid" none marshalFailC1 reqC1).resp.result =
        some "boom" ∧
      (review {} [] "cid" none marshalFailC1 reqC1).resp.patch = none ∧
      (review {} [] "cid" none marshalFailC1 reqC1).resp.allowed = false :=
  C1_marshal_failure_denies {} [] "cid" none marshalFailC1 reqC1 docC1 "boom"
    (by decide) rfl

/-! ### C3: when the namespace lookup happens -/

theorem reviewDecoded_nsQueried (cfg : Config) (rE : List EnvVar)
    (cid : String) (ns : Option NamespaceObj)
    (marshal : List PatchOp → Except String String) (req : AdmissionRequest)
    (pm : ObjectMeta) (spec : PodSpec) :
    (reviewDecoded cfg rE cid ns marshal req pm spec).nsQueried = true := by
  by_cases hskip : getS (pm.annots.getD []) cfg.annotKey = "" ∧ req.kind ≠ "Pod"
  · rw [reviewDecoded_wrapper_skip _ _ _ _ _ _ _ _ hskip]
  · by_cases hA : resolveAnnot cfg req.kind pm ns = ""
    · rw [reviewDecoded_no_directive _ _ _ _ _ _ _ _ hskip hA]
    · rw [reviewDecoded_inject _ _ _ _ _ _ _ _ hskip hA]
      cases marshal (buildPatchDoc cfg (basePath req.kind)
          (resolveAnnot cfg req.kind pm ns) spec (pm.labels.getD [])
          (psaLevelByNs ns)
          (buildEnvVars cfg rE cid pm (resolveAnnot cfg req.kind pm ns))) <;>
        rfl

/-- A CREATE Deployment carrying the mesh annotation in its own
metadata (injected into the decoded pod template by post-processing). -/
def reqC3 : AdmissionRequest :=
  { uid := "u3", operation := "CREATE", kind := "Deployment", nsName := "ns1",
    obj := some { meta := { annots := some [("networkservicemesh.io", "svc1")] },
                  podMeta := {} } }

/-- C3 counterexample: a CREATE request of a wrapper kind whose workload
carries its own annotation — the claim says no namespace query is made,
yet `Review` issues the lookup (line 96 runs on every CREATE request). -/
theorem C3_counterexample :
    reqC3.kind = "Deployment" ∧
      (review {} [] "cid" (some {}) (fun _ => Except.ok "p")
        reqC3).nsQueried = true := by
  constructor
  · rfl
  · decide

/-- C3 (amended): `Review` issues the namespace lookup for every CREATE
request — regardless of the declared kind, of any annotation, and of
decodability — and for no other operation; only the use of the
namespace's annotation value is conditioned on the workload lacking its
own annotation and the kind being Pod. -/
theorem C3_ns_lookup_iff_create (cfg : Config) (rE : List EnvVar)
    (cid : String) (ns : Option NamespaceObj)
    (marshal : List PatchOp → Except String String)
    (req : AdmissionRequest) :
    (review cfg rE cid ns marshal req).nsQueried = true ↔
      req.operation = "CREATE" := by
  by_cases hop : req.operation = "CREATE"
  · simp only [hop, iff_true]
    rcases hun : unmarshal req with _ | ⟨pm, spec⟩
    · rw [review_no_view cfg rE cid ns marshal req hop hun]
    · rw [review_eq_decoded cfg rE cid ns marshal req pm spec hop hun]
      exact reviewDecoded_nsQueried cfg rE cid ns marshal req pm spec
  · rw [review_not_create cfg rE cid ns marshal req hop]
    simp [hop]

/-! ### C4: effective annotation resolution -/

theorem resolveAnnot_own (cfg : Config) (kind : String) (pm : ObjectMeta)
    (ns : Option NamespaceObj)
    (h : getS (pm.annots.getD []) cfg.annotKey ≠ "") :
    resolveAnnot cfg kind pm ns = getS (pm.annots.getD []) cfg.annotKey := by
  simp only [resolveAnnot]
  rw [if_neg (fun hc => h hc.1)]

theorem resolveAnnot_fallback (cfg : Config) (pm : ObjectMeta)
    (n : NamespaceObj) (h : getS (pm.annots.getD []) cfg.annotKey = "") :
    resolveAnnot cfg "Pod" pm (some n) = getS n.annots cfg.annotKey := by
  simp only [resolveAnnot]
  rw [if_pos ⟨h, trivial⟩]

theorem resolveAnnot_unresolved (cfg : Config) (pm : ObjectMeta)
    (h : getS (pm.annots.getD []) cfg.annotKey = "") :
    resolveAnnot cfg "Pod" pm none = "" := by
  simp only [resolveAnnot]
  rw [if_pos ⟨h, trivial⟩, h]

theorem reviewDecoded_effAnnot (cfg : Config) (rE : List EnvVar)
    (cid : String) (ns : Option NamespaceObj)
    (marshal : List PatchOp → Except String String) (req : AdmissionRequest)
    (pm : ObjectMeta) (spec : PodSpec)
    (hn : ¬(getS (pm.annots.getD []) cfg.annotKey = "" ∧ req.kind ≠ "Pod")) :
    (reviewDecoded cfg rE cid ns marshal req pm spec).effAnnot =
      some (resolveAnnot cfg req.kind pm ns) := by
  by_cases hA : resolveAnnot cfg req.kind pm ns = ""
  · rw [reviewDecoded_no_directive _ _ _ _ _ _ _ _ hn hA]
  · rw [reviewDecoded_inject _ _ _ _ _ _ _ _ hn hA]
    cases marshal (buildPatchDoc cfg (basePath req.kind)
        (resolveAnnot cfg req.kind pm ns) spec (pm.labels.getD [])
        (psaLevelByNs ns)
        (buildEnvVars cfg rE cid pm (resolveAnnot cfg req.kind pm ns))) <;>
      rfl

theorem reviewDecoded_no_patch_of_empty (cfg : Config) (rE : List EnvVar)
    (cid : String) (ns : Option NamespaceObj)
    (marshal : List PatchOp → Except String String) (req : AdmissionRequest)
    (pm : ObjectMeta) (spec : PodSpec)
    (hA : resolveAnnot cfg req.kind pm ns = "") :
    (reviewDecoded cfg rE cid ns marshal req pm spec).resp.allowed = true ∧
    (reviewDecoded cfg rE cid ns marshal req pm spec).resp.patch = none ∧
    (reviewDecoded cfg rE cid ns marshal req pm spec).patchDoc = none := by
  by_cases hskip : getS (pm.annots.getD []) cfg.annotKey = "" ∧ req.kind ≠ "Pod"
  · rw [reviewDecoded_wrapper_skip _ _ _ _ _ _ _ _ hskip]
    exact ⟨rfl, rfl, rfl⟩
  · rw [reviewDecoded_no_directive _ _ _ _ _ _ _ _ hskip hA]
    exact ⟨rfl, rfl, rfl⟩

/-- C4: for every CREATE request with a decoded view, the effective
directive is the workload's own annotation value when non-empty; when
empty and the kind is not Pod the request is allowed with no patch (no
namespace inheritance for wrapper kinds); when empty and the kind is
Pod, a resolved namespace contributes its annotation value, an
unresolved one leaves the directive absent; and an absent (empty)
directive never yields a patch. -/
theorem C4_effective_directive (cfg : Config) (rE : List EnvVar)
    (cid : String) (ns : Option NamespaceObj)
    (marshal : List PatchOp → Except String String) (req : AdmissionRequest)
    (pm : ObjectMeta) (spec : PodSpec)
    (hop : req.operation = "CREATE")
    (hun : unmarshal req = some (pm, spec)) :
    (getS (pm.annots.getD []) cfg.annotKey ≠ "" →
      (review cfg rE cid ns marshal req).effAnnot =
        some (getS (pm.annots.getD []) cfg.annotKey)) ∧
    (getS (pm.annots.getD []) cfg.annotKey = "" → req.kind ≠ "Pod" →
      (review cfg rE cid ns marshal req).resp.allowed = true ∧
      (review cfg rE cid ns marshal req).resp.patch = none ∧
      (review cfg rE cid ns marshal req).patchDoc = none) ∧
    (∀ n, getS (pm.annots.getD []) cfg.annotKey = "" → req.kind = "Pod" →
      ns = some n →
      (review cfg rE cid ns marshal req).effAnnot =
        some (getS n.annots cfg.annotKey)) ∧
    (getS (pm.annots.getD []) cfg.annotKey = "" → req.kind = "Pod" →
      ns = none →
      (review cfg rE cid ns marshal req).effAnnot = some "" ∧
      (review cfg rE cid ns marshal req).patchDoc = none) ∧
    ((review cfg rE cid ns marshal req).effAnnot = some "" →
      (review cfg rE cid ns marshal req).resp.patch = none ∧
      (review cfg rE cid ns marshal req).patchDoc = none) := by
  rw [review_eq_decoded cfg rE cid ns marshal req pm spec hop hun]
  refine ⟨?_, ?_, ?_, ?_, ?_⟩
  · intro hown
    rw [reviewDecoded_effAnnot cfg rE cid ns marshal req pm spec
      (fun hc => hown hc.1)]
    rw [resolveAnnot_own cfg req.kind pm ns hown]
  · intro hown hkind
    rw [reviewDecoded_wrapper_skip cfg rE cid ns marshal req pm spec
      ⟨hown, hkind⟩]
    exact ⟨rfl, rfl, rfl⟩
  · intro n hown hkind hns
    subst hns
    have hn : ¬(getS (pm.annots.getD []) cfg.annotKey = "" ∧
        req.kind ≠ "Pod") := fun hc => hc.2 hkind
    rw [reviewDecoded_effAnnot cfg rE cid (some n) marshal req pm spec hn,
      hkind, resolveAnnot_fallback cfg pm n hown]
  · intro hown hkind hns
    subst hns
    have hn : ¬(getS (pm.annots.getD []) cfg.annotKey = "" ∧
        req.kind ≠ "Pod") := fun hc => hc.2 hkind
    have hres : resolveAnnot cfg req.kind pm none = "" := by
      rw [hkind]
      exact resolveAnnot_unresolved cfg pm hown
    constructor
    · rw [reviewDecoded_effAnnot cfg rE cid none marshal req pm spec hn, hres]
    · exact (reviewDecoded_no_patch_of_empty cfg rE cid none marshal req pm
        spec hres).2.2
  · intro heff
    by_cases hskip : getS (pm.annots.getD []) cfg.annotKey = "" ∧
      req.kind ≠ "Pod"
    · rw [reviewDecoded_wrapper_skip cfg rE cid ns marshal req pm spec hskip]
      exact ⟨rfl, rfl⟩
    · rw [reviewDecoded_effAnnot cfg rE cid ns marshal req pm spec hskip]
        at heff
      have hA : resolveAnnot cfg req.kind pm ns = "" := by
        injection heff with h
      have h3 := reviewDecoded_no_patch_of_empty cfg rE cid ns marshal req pm
        spec hA
      exact ⟨h3.2.1, h3.2.2⟩

/-- A bare-Pod CREATE request with no annotation of its own. -/
def reqC4 : AdmissionRequest :=
  { uid := "u4", operation := "CREATE", kind := "Pod", nsName := "ns1",
    obj := some { podMeta := {} } }

/-- A namespace carrying the mesh annotation, for the C4 fallback. -/
def nsC4 : NamespaceObj := { annots := [("networkservicemesh.io", "fromns")] }

/-- C4 witness: the namespace fallback at a concrete instance — a bare
pod without its own annotation inherits the namespace's value. -/
theorem C4_effective_directive_witness :
    (review {} [] "cid" (some nsC4) (fun _ => Except.ok "p") reqC4).effAnnot =
      some "fromns" := by
  have h := C4_effective_directive {} [] "cid" (some nsC4)
    (fun _ => Except.ok "p") reqC4 { labels := some [] } {} rfl (by decide)
  have h2 := h.2.2.1 nsC4 (by decide) rfl rfl
  rw [h2]
  decide

/-! ### C5: ReplicaSet owned by a Deployment -/

theorem unmarshal_some_obj (req : AdmissionRequest) (o : DecodedObj)
    (hk : req.kind ∈ supportedKinds) (hobj : req.obj = some o) :
    unmarshal req =
      match postProcessPodMeta o.podMeta
          (if req.kind = "Pod" then {} else o.meta) req.kind with
      | none => none
      | some pm => some (pm, o.podSpec) := by
  unfold unmarshal
  rw [if_pos hk, hobj]

theorem postProcessPodMeta_rs_owner (podMeta meta : ObjectMeta)
    (h : ∃ r ∈ meta.ownerRefs, r.kind = "Deployment") :
    postProcessPodMeta podMeta meta "ReplicaSet" = none := by
  have hany : meta.ownerRefs.any (fun o => o.kind = "Deployment") = true := by
    simp only [List.any_eq_true]
    obtain ⟨r, hr, hk⟩ := h
    exact ⟨r, hr, by simp [hk]⟩
  cases hann : podMeta.annots with
  | none => simp [postProcessPodMeta, hann, hany]
  | some m => simp [postProcessPodMeta, hann]

/-- C5: for every CREATE request of kind ReplicaSet whose decoded
owner-reference list contains a Deployment reference, `Review` returns
allowed with no patch (and builds no patch document), regardless of
annotations on the workload or its namespace. -/
theorem C5_replicaset_owned (cfg : Config) (rE : List EnvVar) (cid : String)
    (ns : Option NamespaceObj)
    (marshal : List PatchOp → Except String String) (req : AdmissionRequest)
    (o : DecodedObj)
    (hop : req.operation = "CREATE") (hkind : req.kind = "ReplicaSet")
    (hobj : req.obj = some o)
    (hown : ∃ r ∈ o.meta.ownerRefs, r.kind = "Deployment") :
    (review cfg rE cid ns marshal req).resp.allowed = true ∧
    (review cfg rE cid ns marshal req).resp.patch = none ∧
    (review cfg rE cid ns marshal req).patchDoc = none := by
  have hun : unmarshal req = none := by
    rw [unmarshal_some_obj req o (by rw [hkind]; decide) hobj, hkind,
      if_neg (show ¬(("ReplicaSet" : String) = "Pod") by decide),
      postProcessPodMeta_rs_owner o.podMeta o.meta hown]
  rw [review_no_view cfg rE cid ns marshal req hop hun]
  exact ⟨rfl, rfl, rfl⟩

/-- A ReplicaSet CREATE request owned by a Deployment, with annotations
present on the wrapper metadata. -/
def reqC5 : AdmissionRequest :=
  { uid := "u5", operation := "CREATE", kind := "ReplicaSet", nsName := "ns1",
    obj := some
      { meta := { annots := some [("networkservicemesh.io", "svc1")],
                  ownerRefs := [⟨"Deployment"⟩] },
        podMeta := {} } }

/-- C5 witness: the theorem applied at a concrete owned ReplicaSet whose
wrapper and namespace both carry the annotation. -/
theorem C5_replicaset_owned_witness :
    (review {} [] "cid" (some nsC4) (fun _ => Except.ok "p")
        reqC5).resp.allowed = true ∧
      (review {} [] "cid" (some nsC4) (fun _ => Except.ok "p")
        reqC5).resp.patch = none ∧
      (review {} [] "cid" (some nsC4) (fun _ => Except.ok "p")
        reqC5).patchDoc = none :=
  C5_replicaset_owned {} [] "cid" (some nsC4) (fun _ => Except.ok "p") reqC5
    { meta := { annots := some [("networkservicemesh.io", "svc1")],
                ownerRefs := [⟨"Deployment"⟩] },
      podMeta := {} }
    rfl rfl rfl ⟨⟨"Deployment"⟩, by decide, rfl⟩

/-! ### C6: wrapper-kind annotation injection -/

theorem postProcessPodMeta_dup_annots (podMeta meta : ObjectMeta)
    (kind : String) (m : SMap) (hkind : kind ≠ "Pod")
    (hann : podMeta.annots = some m) :
    postProcessPodMeta podMeta meta kind = none := by
  simp [postProcessPodMeta, hann, hkind]

theorem postProcessPodMeta_inject_eq (podMeta meta : ObjectMeta)
    (kind : String) (pm : ObjectMeta) (hkind : kind ≠ "Pod")
    (hann : podMeta.annots = none)
    (hres : postProcessPodMeta podMeta meta kind = some pm) :
    pm.annots = meta.annots := by
  simp only [postProcessPodMeta, hann, hkind, if_true, ite_true] at hres
  rw [if_pos hkind] at hres
  simp only [hann] at hres
  split at hres
  · cases hres
  · injection hres with h
    rw [← h]

theorem wrapperKinds_spec (kind : String) (h : kind ∈ wrapperKinds) :
    kind ≠ "Pod" ∧ kind ∈ supportedKinds := by
  simp only [wrapperKinds, List.mem_cons, List.not_mem_nil, or_false] at h
  rcases h with rfl | rfl | rfl | rfl <;> exact ⟨by decide, by decide⟩

/-- C6: for every CREATE request of a wrapper kind whose decoded pod
template already carries an annotations map, the view is rejected and
`Review` allows with no patch; and whenever post-processing succeeds for
a wrapper kind whose pod template had no annotations, the pod template's
annotations equal the wrapper's own metadata annotations (injected
exactly once). -/
theorem C6_wrapper_annots :
    (∀ (cfg : Config) (rE : List EnvVar) (cid : String)
      (ns : Option NamespaceObj)
      (marshal : List PatchOp → Except String String)
      (req : AdmissionRequest) (o : DecodedObj) (m : SMap),
      req.operation = "CREATE" → req.kind ∈ wrapperKinds →
      req.obj = some o → o.podMeta.annots = some m →
      (review cfg rE cid ns marshal req).resp.allowed = true ∧
      (review cfg rE cid ns marshal req).resp.patch = none ∧
      (review cfg rE cid ns marshal req).patchDoc = none) ∧
    (∀ (podMeta meta : ObjectMeta) (kind : String) (pm : ObjectMeta),
      kind ∈ wrapperKinds → podMeta.annots = none →
      postProcessPodMeta podMeta meta kind = some pm →
      pm.annots = meta.annots) := by
  constructor
  · intro cfg rE cid ns marshal req o m hop hkind hobj hann
    obtain ⟨hnp, hsup⟩ := wrapperKinds_spec req.kind hkind
    have hun : unmarshal req = none := by
      rw [unmarshal_some_obj req o hsup hobj, if_neg hnp,
        postProcessPodMeta_dup_annots o.podMeta o.meta req.kind m hnp hann]
    rw [review_no_view cfg rE cid ns marshal req hop hun]
    exact ⟨rfl, rfl, rfl⟩
  · intro podMeta meta kind pm hkind hann hres
    exact postProcessPodMeta_inject_eq podMeta meta kind pm
      (wrapperKinds_spec kind hkind).1 hann hres

/-- A StatefulSet CREATE request whose pod template already carries an
annotations map while the wrapper also has one. -/
def reqC6 : AdmissionRequest :=
  { uid := "u6", operation := "CREATE", kind := "StatefulSet", nsName := "ns1",
    obj := some { meta := { annots := some [("networkservicemesh.io", "x")] },
                  podMeta := { annots := some [] } } }

/-- The post-processed pod-template metadata of a Deployment whose
template had no annotations: the wrapper's annotations are injected. -/
def pmC6 : ObjectMeta :=
  { annots := some [("a", "b")], labels := some [] }

/-- C6 witness: both conjuncts applied at concrete instances. -/
theorem C6_wrapper_annots_witness :
    ((review {} [] "cid" (some nsC4) (fun _ => Except.ok "p")
        reqC6).resp.allowed = true ∧
      (review {} [] "cid" (some nsC4) (fun _ => Except.ok "p")
        reqC6).resp.patch = none ∧
      (review {} [] "cid" (some nsC4) (fun _ => Except.ok "p")
        reqC6).patchDoc = none) ∧
    pmC6.annots = ({ annots := some [("a", "b")] } : ObjectMeta).annots :=
  ⟨C6_wrapper_annots.1 {} [] "cid" (some nsC4) (fun _ => Except.ok "p") reqC6
      { meta := { annots := some [("networkservicemesh.io", "x")] },
        podMeta := { annots := some [] } } []
      rfl (by decide) rfl rfl,
   C6_wrapper_annots.2 {} { annots := some [("a", "b")] } "Deployment" pmC6
      (by decide) rfl (by decide)⟩

/-! ### C7: security-level-dependent volume strategy -/

theorem review_patchDoc_eq (cfg : Config) (rE : List EnvVar) (cid : String)
    (ns : Option NamespaceObj)
    (marshal : List PatchOp → Except String String) (req : AdmissionRequest)
    (pm : ObjectMeta) (spec : PodSpec) (doc : List PatchOp)
    (hop : req.operation = "CREATE") (hun : unmarshal req = some (pm, spec))
    (hdoc : (review cfg rE cid ns marshal req).patchDoc = some doc) :
    doc = buildPatchDoc cfg (basePath req.kind)
      (resolveAnnot cfg req.kind pm ns) spec (pm.labels.getD [])
      (psaLevelByNs ns)
      (buildEnvVars cfg rE cid pm (resolveAnnot cfg req.kind pm ns)) := by
  rw [review_eq_decoded cfg rE cid ns marshal req pm spec hop hun] at hdoc
  by_cases hskip : getS (pm.annots.getD []) cfg.annotKey = "" ∧ req.kind ≠ "Pod"
  · rw [reviewDecoded_wrapper_skip _ _ _ _ _ _ _ _ hskip] at hdoc
    simp at hdoc
  · by_cases hA : resolveAnnot cfg req.kind pm ns = ""
    · rw [reviewDecoded_no_directive _ _ _ _ _ _ _ _ hskip hA] at hdoc
      simp at hdoc
    · rw [reviewDecoded_inject _ _ _ _ _ _ _ _ hskip hA] at hdoc
      generalize hD : buildPatchDoc cfg (basePath req.kind)
        (resolveAnnot cfg req.kind pm ns) spec (pm.labels.getD [])
        (psaLevelByNs ns)
        (buildEnvVars cfg rE cid pm (resolveAnnot cfg req.kind pm ns)) =
        doc0 at hdoc ⊢
      rcases hm : marshal doc0 with e | bs
      · rw [hm] at hdoc
        simp at hdoc
        exact hdoc.symm
      · rw [hm] at hdoc
        simp at hdoc
        exact hdoc.symm

/-- C7: the volumes patch appends exactly the two well-known volumes —
their sources CSI-driver references (read-only) when the derived level
is not privileged and host-path sources at the two fixed directories
when it is; the level is privileged whenever the namespace is nil or
its enforcement label is missing or unparseable; and in every admitted
request's patch document the third operation is exactly this volumes
patch built from the request's volumes and the namespace-derived
level. -/
theorem C7_volumes_strategy :
    (∀ (p : String) (vols : List Volume) (lvl : String),
      createVolumesPatch p vols lvl =
        ⟨"add", joinPatch p "spec" "volumes", PatchValue.volumes (vols ++
          (if lvl ≠ "privileged" then
            [⟨"spire-agent-socket", VolumeSrc.csi "csi.spiffe.io" true⟩,
             ⟨"nsm-socket", VolumeSrc.csi "csi.networkservicemesh.io" true⟩]
          else
            [⟨"spire-agent-socket",
              VolumeSrc.hostPath "/run/spire/sockets" "Directory"⟩,
             ⟨"nsm-socket",
              VolumeSrc.hostPath "/var/lib/networkservicemesh"
                "Directory"⟩]))⟩) ∧
    (∀ ns : Option NamespaceObj,
      (ns = none ∨ ∀ n, ns = some n →
        parsePsaLevel (getS n.labels enforceLevelLabelKey) = none) →
      psaLevelByNs ns = "privileged") ∧
    (∀ (cfg : Config) (rE : List EnvVar) (cid : String)
      (ns : Option NamespaceObj)
      (marshal : List PatchOp → Except String String)
      (req : AdmissionRequest) (pm : ObjectMeta) (spec : PodSpec)
      (doc : List PatchOp),
      req.operation = "CREATE" → unmarshal req = some (pm, spec) →
      (review cfg rE cid ns marshal req).patchDoc = some doc →
      doc.get? 2 = some (createVolumesPatch (basePath req.kind) spec.volumes
        (psaLevelByNs ns))) := by
  refine ⟨?_, ?_, ?_⟩
  · intro p vols lvl
    simp only [createVolumesPatch]
    by_cases h : lvl = "privileged"
    · rw [if_neg (not_not_intro h), if_neg (not_not_intro h)]
    · rw [if_pos h, if_pos h]
  · intro ns h
    rcases ns with _ | n
    · rfl
    · rcases h with h | h
      · cases h
      · simp only [psaLevelByNs, h n rfl]
  · intro cfg rE cid ns marshal req pm spec doc hop hun hdoc
    rw [review_patchDoc_eq cfg rE cid ns marshal req pm spec doc hop hun hdoc]
    rfl

/-- A bare-Pod CREATE request with its own annotation, for the C7
witness. -/
def reqC7 : AdmissionRequest :=
  { uid := "u7", operation := "CREATE", kind := "Pod", nsName := "ns1",
    obj := some { podMeta :=
      { annots := some [("networkservicemesh.io", "svc1")] } } }

/-- The patch document built for `reqC7` under the default
configuration with no namespace. -/
def docC7 : List PatchOp :=
  [⟨"add", "/spec/initContainers", PatchValue.containers []⟩,
   ⟨"add", "/spec/containers", PatchValue.containers []⟩,
   ⟨"add", "/spec/volumes", PatchValue.volumes
     [⟨"spire-agent-socket", VolumeSrc.hostPath "/run/spire/sockets" "Directory"⟩,
      ⟨"nsm-socket", VolumeSrc.hostPath "/var/lib/networkservicemesh" "Directory"⟩]⟩,
   ⟨"add", "/metadata/labels", PatchValue.labelMap []⟩]

/-- C7 witness: the classification conjunct at a namespace with no
enforcement label, and the patch-document conjunct at a concrete
admitted request. -/
theorem C7_volumes_strategy_witness :
    psaLevelByNs (some { annots := [], labels := [("x", "y")] }) =
        "privileged" ∧
      docC7.get? 2 = some (createVolumesPatch "/" [] (psaLevelByNs none)) :=
  ⟨C7_volumes_strategy.2.1 (some { annots := [], labels := [("x", "y")] })
      (Or.inr (fun n hn => by injection hn with h; subst h; decide)),
   C7_volumes_strategy.2.2 {} [] "cid" none (fun _ => Except.ok "p") reqC7
      { annots := some [("networkservicemesh.io", "svc1")],
        labels := some [] }
      {} docC7 rfl (by decide) (by decide)⟩

/-! ### C2: per-token resource limits on init containers -/

/-- A configuration with one init-container image. -/
def cfgC2 : Config := { initContainerImages := ["nsm-init"] }

/-- A well-formed effective annotation carrying one sriovToken query
parameter with value tok1. -/
def annC2 : String := "kernel://svc?sriovToken=tok1"

/-- C2, evaluated at the failing input: `parseResources` does extract
the pool counts from the annotation ([tok1 ↦ 1]) and `addResources`
writes them, but `addResourcesLimits` — called immediately afterwards
(main.go line 314) — replaces the whole `Resources` struct, so the init
container emitted by the initContainers patch operation carries only
the static cpu/memory limits and no limit named tok1. -/
theorem C2_limits_overwritten :
    parseResources annC2 = [("tok1", 1)] ∧
    (createInitContainerPatch cfgC2 "/" annC2 [] "privileged" []).value =
      PatchValue.containers
        [{ name := "nsm-init", env := [], image := "nsm-init",
           imagePullPolicy := "IfNotPresent",
           volumeMounts :=
             [⟨"spire-agent-socket", "/run/spire/sockets", true⟩,
              ⟨"nsm-socket", "/var/lib/networkservicemesh", true⟩],
           resources := { limits := [("cpu", "200m"), ("memory", "80Mi")],
                          requests := [("cpu", "100m"), ("memory", "40Mi")] },
           securityCtx := none }] := by
  constructor
  · decide
  · decide

/-! ### C8: label merge -/

theorem lookupS_insertS_self (m : SMap) (k v : String) :
    lookupS (insertS m k v) k = some v := by
  induction m with
  | nil => simp [insertS, lookupS]
  | cons kv rest ih =>
    obtain ⟨k0, v0⟩ := kv
    by_cases h : k0 = k
    · simp [insertS, h, lookupS]
    · simp [insertS, h, lookupS, ih]

theorem lookupS_insertS_ne (m : SMap) (k v k' : String) (h : k' ≠ k) :
    lookupS (insertS m k v) k' = lookupS m k' := by
  have hne : k ≠ k' := fun hh => h hh.symm
  induction m with
  | nil => simp [insertS, lookupS, hne]
  | cons kv rest ih =>
    obtain ⟨k0, v0⟩ := kv
    by_cases h0 : k0 = k
    · subst h0
      simp [insertS, lookupS, hne]
    · simp [insertS, h0, lookupS, ih]

theorem insertS_self_of_lookup (m : SMap) (k v : String)
    (h : lookupS m k = some v) : insertS m k v = m := by
  induction m with
  | nil => simp [lookupS] at h
  | cons kv rest ih =>
    obtain ⟨k0, v0⟩ := kv
    by_cases h0 : k0 = k
    · rw [lookupS, if_pos h0] at h
      injection h with hv
      simp [insertS, h0, hv]
    · rw [lookupS, if_neg h0] at h
      simp [insertS, h0, ih h]

theorem mergeLabels_cons (v : SMap) (k val : String) (c : SMap) :
    mergeLabels v ((k, val) :: c) = mergeLabels (insertS v k val) c := rfl

theorem lookupS_mergeLabels_not_mem : ∀ (c v : SMap) (k : String),
    k ∉ c.map Prod.fst → lookupS (mergeLabels v c) k = lookupS v k := by
  intro c
  induction c with
  | nil => intro v k _; rfl
  | cons kv rest ih =>
    intro v k h
    obtain ⟨k0, v0⟩ := kv
    simp only [List.map_cons, List.mem_cons, not_or] at h
    rw [mergeLabels_cons, ih (insertS v k0 v0) k h.2,
      lookupS_insertS_ne v k0 v0 k h.1]

theorem lookupS_mergeLabels_mem : ∀ (c v : SMap) (k val : String),
    (c.map Prod.fst).Nodup → (k, val) ∈ c →
    lookupS (mergeLabels v c) k = some val := by
  intro c
  induction c with
  | nil =>
    intro v k val _ hmem
    cases hmem
  | cons kv rest ih =>
    intro v k val hnd hmem
    obtain ⟨k0, v0⟩ := kv
    simp only [List.map_cons, List.nodup_cons] at hnd
    rcases List.mem_cons.mp hmem with heq | hmem2
    · injection heq with h1 h2
      subst h1
      subst h2
      rw [mergeLabels_cons, lookupS_mergeLabels_not_mem rest _ k hnd.1,
        lookupS_insertS_self]
    · rw [mergeLabels_cons]
      exact ih (insertS v k0 v0) k val hnd.2 hmem2

theorem mergeLabels_id_of_lookup : ∀ (c m : SMap),
    (∀ kv ∈ c, lookupS m kv.1 = some kv.2) → mergeLabels m c = m := by
  intro c
  induction c with
  | nil => intro m _; rfl
  | cons kv rest ih =>
    intro m h
    obtain ⟨k0, v0⟩ := kv
    have h0 : lookupS m k0 = some v0 := h (k0, v0) (by simp)
    rw [mergeLabels_cons, insertS_self_of_lookup m k0 v0 h0]
    exact ih m (fun kv hkv => h kv (by simp [hkv]))

/-- C8: the label patch re-emits the workload's whole label map with the
configured entries merged in; configured values win on key collision
while unrelated keys keep their workload values; and the merge is
idempotent — re-applying it with the same configured map (whose keys,
coming from a Go map, are distinct) changes nothing. -/
theorem C8_label_merge :
    (∀ (cfg : Config) (p : String) (v : SMap),
      createLabelPatch cfg p v =
        ⟨"add", joinPatch p "metadata" "labels",
          PatchValue.labelMap (mergeLabels v cfg.labels)⟩) ∧
    (∀ (v c : SMap) (k val : String), (c.map Prod.fst).Nodup →
      (k, val) ∈ c → lookupS (mergeLabels v c) k = some val) ∧
    (∀ (v c : SMap) (k : String), k ∉ c.map Prod.fst →
      lookupS (mergeLabels v c) k = lookupS v k) ∧
    (∀ (v c : SMap), (c.map Prod.fst).Nodup →
      mergeLabels (mergeLabels v c) c = mergeLabels v c) := by
  refine ⟨fun _ _ _ => rfl,
    fun v c k val hnd hmem => lookupS_mergeLabels_mem c v k val hnd hmem,
    fun v c k h => lookupS_mergeLabels_not_mem c v k h, ?_⟩
  intro v c hnd
  apply mergeLabels_id_of_lookup
  intro kv hkv
  exact lookupS_mergeLabels_mem c v kv.1 kv.2 hnd hkv

/-- C8 witness: collision overwrite, preservation of unrelated keys,
and idempotence on a concrete pair of maps. -/
theorem C8_label_merge_witness :
    lookupS (mergeLabels [("a", "1"), ("b", "2")] [("b", "9"), ("c", "3")])
        "b" = some "9" ∧
      lookupS (mergeLabels [("a", "1"), ("b", "2")] [("b", "9"), ("c", "3")])
        "a" = some "1" ∧
      mergeLabels
          (mergeLabels [("a", "1"), ("b", "2")] [("b", "9"), ("c", "3")])
          [("b", "9"), ("c", "3")] =
        mergeLabels [("a", "1"), ("b", "2")] [("b", "9"), ("c", "3")] :=
  ⟨C8_label_merge.2.1 [("a", "1"), ("b", "2")] [("b", "9"), ("c", "3")]
      "b" "9" (by decide) (by decide),
   C8_label_merge.2.2.1 [("a", "1"), ("b", "2")] [("b", "9"), ("c", "3")]
      "a" (by decide),
   C8_label_merge.2.2.2 [("a", "1"), ("b", "2")] [("b", "9"), ("c", "3")]
      (by decide)⟩

/-! ### C10: env resolution safety and shape -/

theorem resolveEnvVar_none (e : String) (h : '=' ∉ e.data) :
    resolveEnvVar e = none := by
  unfold resolveEnvVar goSplit
  rw [goSplitList_eq]
  rcases hd : e.data.dropWhile (fun c => c != '=') with _ | ⟨d, r⟩
  · rfl
  · have hmem : d ∈ e.data := by
      apply (List.dropWhile_suffix (fun c => c != '=')).subset
      rw [hd]
      simp
    have hdeq : d = '=' := by
      have h2 := List.head_dropWhile_not (p := fun c => c != '=')
        (l := e.data)
      rw [hd] at h2
      simpa using h2 (by simp)
    exact absurd (hdeq ▸ hmem) h

theorem resolveEnvVar_eq (e : String) (h : '=' ∈ e.data) :
    resolveEnvVar e = some
      ⟨String.mk (e.data.takeWhile (fun c => c != '=')),
       String.mk (((e.data.dropWhile (fun c => c != '=')).drop 1).takeWhile
         (fun c => c != '=')), none⟩ := by
  rcases hd : e.data.dropWhile (fun c => c != '=') with _ | ⟨d, r⟩
  · rw [List.dropWhile_eq_nil_iff] at hd
    have := hd '=' h
    simp at this
  · unfold resolveEnvVar goSplit
    rw [goSplitList_eq, hd]
    rcases hg : goSplitList '=' r with _ | ⟨g, gs⟩
    · exact absurd hg (goSplitList_ne_nil '=' r)
    · have hghead : g = r.takeWhile (fun c => c != '=') := by
        have hh := goSplitList_head '=' r
        rw [hg] at hh
        simpa using hh
      simp only [hg, List.map_cons, hghead, List.drop_succ_cons,
        List.drop_zero]

theorem resolveEnvList_isSome : ∀ envs : List String,
    (resolveEnvList envs).isSome = true ↔ ∀ e ∈ envs, '=' ∈ e.data := by
  intro envs
  induction envs with
  | nil => simp [resolveEnvList]
  | cons e rest ih =>
    simp only [resolveEnvList]
    by_cases he : '=' ∈ e.data
    · rw [resolveEnvVar_eq e he]
      rcases hr : resolveEnvList rest with _ | vs
      · rw [hr] at ih
        simp only [Option.isSome_none, Bool.false_eq_true, false_iff] at ih ⊢
        intro hall
        exact ih (fun x hx => hall x (List.mem_cons_of_mem e hx))
      · rw [hr] at ih
        simp only [Option.isSome_some, true_iff] at ih ⊢
        intro x hx
        rcases List.mem_cons.mp hx with rfl | hx2
        · exact he
        · exact ih x hx2
    · rw [resolveEnvVar_none e he]
      simp only [Option.isSome_none, Bool.false_eq_true, false_iff]
      intro hall
      exact he (hall e (List.mem_cons_self e rest))

theorem resolveEnvList_eq : ∀ envs : List String,
    (∀ e ∈ envs, '=' ∈ e.data) →
    resolveEnvList envs = some (envs.map (fun e =>
      ⟨String.mk (e.data.takeWhile (fun c => c != '=')),
       String.mk (((e.data.dropWhile (fun c => c != '=')).drop 1).takeWhile
         (fun c => c != '=')), none⟩)) := by
  intro envs
  induction envs with
  | nil => intro _; rfl
  | cons e rest ih =>
    intro h
    simp only [resolveEnvList, resolveEnvVar_eq e (h e (by simp)),
      ih (fun x hx => h x (by simp [hx])), List.map_cons]

/-- C10: the one-time env initialization triggered by the first
`GetOrResolveEnvs` call completes without panicking exactly when every
configured entry contains at least one `=`; under that precondition
each entry yields an env var named by the substring before the first
`=` with the value between the first and second `=` (text after a
second `=` is dropped), followed by the two well-known bootstrap env
vars. -/
theorem C10_env_initialization :
    (∀ envs : List String,
      (resolveEnvs envs).isSome = true ↔ ∀ e ∈ envs, '=' ∈ e.data) ∧
    (∀ envs : List String, (∀ e ∈ envs, '=' ∈ e.data) →
      resolveEnvs envs = some ((envs.map (fun e =>
        ⟨String.mk (e.data.takeWhile (fun c => c != '=')),
         String.mk (((e.data.dropWhile (fun c => c != '=')).drop 1).takeWhile
           (fun c => c != '=')), none⟩)) ++ [spiffeEnv, podNameEnv])) := by
  constructor
  · intro envs
    rw [← resolveEnvList_isSome envs]
    unfold resolveEnvs
    rcases resolveEnvList envs with _ | l <;> rfl
  · intro envs h
    unfold resolveEnvs
    rw [resolveEnvList_eq envs h]
    rfl

/-- C10 witness: the shape conjunct applied at a concrete entry with
two equals signs — the name is the part before the first, the value
the part between the two, the trailing part dropped, and the two
bootstrap env vars follow. -/
theorem C10_env_initialization_witness :
    resolveEnvs ["A=B=C"] = some ((["A=B=C"].map (fun e =>
        ⟨String.mk (e.data.takeWhile (fun c => c != '=')),
         String.mk (((e.data.dropWhile (fun c => c != '=')).drop 1).takeWhile
           (fun c => c != '=')), none⟩)) ++ [spiffeEnv, podNameEnv]) :=
  C10_env_initialization.2 ["A=B=C"] (by decide)
